import Mathlib

/-!
# Verification of the Claude Code API gateway core

Shallow embedding of the gateway's core subsystem:

* `claude_code_api/utils/parser.py`   — `ClaudeOutputParser`
* `claude_code_api/utils/streaming.py`— `OpenAIStreamConverter.convert_stream`
  and `create_non_streaming_response`
* `claude_code_api/core/claude_manager.py` — `ClaudeProcess.start`,
  `ClaudeManager.create_session`
* `claude_code_api/core/session_manager.py` — `SessionManager.end_session`,
  `cleanup_expired_sessions`, `get_session_stats`

Python strings are modelled as `List Char` (`PyStr`), so that Python's
`str.strip()`, `str.split()` and `"\n".join(...)` become plain list
functions.  Python `float` amounts (costs) are idealised as `ℚ`; dicts
keyed by strings become association lists; `json.loads` is external
library code, so a line of tool output is modelled together with its
decode result (`Option _`, `none` for a malformed line).  Exception
paths of the Python code become `Except`/`Option` results: a Lean
function is total, which models "never raises" directly.
-/

/-- Python strings, modelled as their character lists. -/
abbrev PyStr := List Char

/-- Python `s.strip()`: drop leading whitespace, then trailing whitespace
(implemented by reversing, dropping the now-leading run, reversing back). -/
def pyStrip (s : PyStr) : PyStr :=
  ((s.dropWhile Char.isWhitespace).reverse.dropWhile Char.isWhitespace).reverse

/-- Auxiliary for `pySplitLen`: counts maximal non-whitespace runs; the
`inWord` flag records whether the previous character was part of a run. -/
def pySplitLenAux : Bool → PyStr → Nat
  | _, [] => 0
  | inWord, c :: rest =>
    if c.isWhitespace then pySplitLenAux false rest
    else (if inWord then 0 else 1) + pySplitLenAux true rest

/-- Python `len(s.split())`: the number of whitespace-separated tokens of `s`
(Python's no-argument `split` drops empty tokens). -/
def pySplitLen (s : PyStr) : Nat := pySplitLenAux false s

/-- Python `sep.join(parts)`. -/
def pyJoin (sep : PyStr) : List PyStr → PyStr
  | [] => []
  | [p] => p
  | p :: q :: rest => p ++ sep ++ pyJoin sep (q :: rest)

/-- Truthiness of a Python optional string (`None` and `""` are falsy). -/
def optStrTruthy : Option String → Bool
  | some s => s ≠ ""
  | none => false

section ModelValidation
/-!
## `claude_code_api/models/claude.py`
-/

/-- The four members of the `ClaudeModel` enum. -/
def claudeModelValues : List String :=
  ["claude-opus-4-20250514", "claude-sonnet-4-20250514",
   "claude-3-7-sonnet-20250219", "claude-3-5-haiku-20241022"]

/-- Member `ClaudeModel.HAIKU_35`, the fallback returned for unknown names. -/
def haiku35 : String := "claude-3-5-haiku-20241022"

/-- Function `validate_claude_model`: return the name if it is a known Claude model,
otherwise default to Haiku. -/
def validate_claude_model (model : String) : String :=
  if model ∈ claudeModelValues then model else haiku35

end ModelValidation

section ClaudeManager
/-!
## `claude_code_api/core/claude_manager.py`
-/

/-- One queued output item of a `ClaudeProcess`: a decoded JSON dict from a
stdout line, as consumed by the streaming/aggregation layer.  Fields mirror
the dict keys the consumers read: `"type"`, `"message"` (with its
`"content"`), `"session_id"`, and the top-level `"content"` used by the
synthetic text sentinel.  Absent string keys are `""`. -/
inductive ContentItem where
  /-- a dict content part carrying `"type"` and `"text"` (`""` if absent) -/
  | dictItem (ctype : String) (ctext : PyStr)
  /-- a non-dict element of a content array (skipped by every consumer) -/
  | strItem (s : PyStr)
deriving DecidableEq, Repr

/-- The `"content"` value inside a message dict. -/
inductive PyContent where
  /-- key absent or `None` -/
  | pyNone
  /-- a plain string -/
  | pyStr (s : PyStr)
  /-- a content array -/
  | pyList (items : List ContentItem)
deriving DecidableEq, Repr

/-- The `"message"` value of a tool-output dict: `absent` covers a missing
key and a falsy (empty) dict, `present c` a truthy dict whose `"content"`
is `c` (`pyNone` when the key is missing). -/
inductive MsgMessage where
  | absent
  | present (c : PyContent)
deriving DecidableEq, Repr

/-- A decoded line of tool output (one dict of the output queue). -/
structure MsgDict where
  mtype : String
  message : MsgMessage
  sessionId : String
  rawContent : PyStr
deriving DecidableEq, Repr

/-- The sentinel `{"type": "text", "content": line}` enqueued for a
non-JSON stdout line. -/
def textSentinel (line : PyStr) : MsgDict :=
  { mtype := "text", message := .absent, sessionId := "", rawContent := line }

/-- A raw stdout line together with its `json.loads` decode result
(`none`: the line is not valid JSON and `json.loads` raised). -/
structure QLine where
  raw : PyStr
  decoded : Option MsgDict

/-- The per-line body of the output loop in `ClaudeProcess.start`
(lines 99–112): skip blank lines; a decodable line may capture the first
truthy `session_id` and is enqueued as-is; a malformed line is enqueued as
a text sentinel.  Returns the updated captured session id and the items
put on the output queue. -/
def processOutputLine (claudeSessionId : Option String) (li : QLine) :
    Option String × List MsgDict :=
  if pyStrip li.raw = [] then (claudeSessionId, [])
  else
    match li.decoded with
    | none => (claudeSessionId, [textSentinel li.raw])
    | some data =>
      let sid :=
        if claudeSessionId = none ∧ data.sessionId ≠ "" then some data.sessionId
        else claudeSessionId
      (sid, [data])

/-- Folds `processOutputLine` over all stdout lines. -/
def processOutputLines (claudeSessionId : Option String) :
    List QLine → Option String × List MsgDict
  | [] => (claudeSessionId, [])
  | li :: rest =>
    let (sid, items) := processOutputLine claudeSessionId li
    let (sid', items') := processOutputLines sid rest
    (sid', items ++ items')

/-- Result of `ClaudeProcess.start` after the spawned tool exited:
the boolean return value, the session id finally recorded on the process,
and the contents of the output and error queues (each queue's trailing
`None` end-of-stream marker is implicit in the list end). -/
structure StartResult where
  ok : Bool
  sessionId : String
  output : List MsgDict
  errors : List PyStr
deriving DecidableEq, Repr

/-- Completion handling of `ClaudeProcess.start` (lines 94–124): on exit
code 0 the buffered stdout lines are parsed into the output queue and the
tool's own session id (first truthy one) replaces the caller's; on a
nonzero exit code nothing is parsed, the stripped stderr text is put on
the error queue, and the call reports failure. -/
def finishStart (sessionId : String) (returncode : Int)
    (stdoutLines : List QLine) (stderr : PyStr) : StartResult :=
  if returncode = 0 then
    let (sid, out) := processOutputLines none stdoutLines
    { ok := true, sessionId := sid.getD sessionId, output := out, errors := [] }
  else
    { ok := false, sessionId := sessionId, output := [], errors := [pyStrip stderr] }

/-- Errors `ClaudeManager.create_session` can raise. -/
inductive CreateSessionError where
  /-- Raised as `"Maximum concurrent sessions (...) reached"` -/
  | capacityExceeded
  /-- Raised as `"Failed to start Claude process"` -/
  | startFailed
deriving DecidableEq, Repr

/-- State of a `ClaudeManager`: the keys of `self.processes` and the
configured `max_concurrent` bound. -/
structure ManagerState where
  processes : List String
  maxConcurrent : Nat
deriving DecidableEq, Repr

/-- Method `ClaudeManager.create_session` (lines 264–304): raise when the process
registry already holds `max_concurrent` entries; otherwise start the
process (`startOk` abstracts over `ClaudeProcess.start`'s outcome) and —
per the source comment "Don't store processes since Claude CLI completes
immediately" — return without registering it, leaving the state unchanged. -/
def create_session (st : ManagerState) (startOk : Bool) :
    Except CreateSessionError ManagerState :=
  if st.maxConcurrent ≤ st.processes.length then .error .capacityExceeded
  else if startOk then .ok st
  else .error .startFailed

/-- Issue a sequence of `create_session` calls, counting
(successes, capacity failures, start failures). -/
def runCreateCalls : ManagerState → List Bool → ManagerState × Nat × Nat × Nat
  | st, [] => (st, 0, 0, 0)
  | st, ok :: rest =>
    match create_session st ok with
    | .ok st' =>
      let (stf, s, c, f) := runCreateCalls st' rest
      (stf, s + 1, c, f)
    | .error .capacityExceeded =>
      let (stf, s, c, f) := runCreateCalls st rest
      (stf, s, c + 1, f)
    | .error .startFailed =>
      let (stf, s, c, f) := runCreateCalls st rest
      (stf, s, c, f + 1)

end ClaudeManager

section OutputParser
/-!
## `claude_code_api/utils/parser.py` — `ClaudeOutputParser`
-/

/-- A `usage` payload; `input_tokens`/`output_tokens` are read with
`.get(_, 0)`, so absent keys are modelled as `0`. -/
structure UsagePayload where
  input_tokens : Nat
  output_tokens : Nat
deriving DecidableEq, Repr

/-- A validated `ClaudeMessage` (pydantic model), restricted to the fields
`parse_line` reads.  `Option` fields default to `None`. -/
structure PMsg where
  type : String
  session_id : Option String
  model : Option String
  usage : Option UsagePayload
  cost_usd : Option ℚ
deriving DecidableEq, Repr

/-- The running state of a `ClaudeOutputParser`. -/
structure ParserState where
  session_id : Option String
  model : Option String
  total_tokens : Nat
  total_cost : ℚ
  message_count : Nat
deriving DecidableEq, Repr

/-- State after `ClaudeOutputParser.__init__` or `reset`. -/
def initParser : ParserState :=
  { session_id := none, model := none, total_tokens := 0,
    total_cost := 0, message_count := 0 }

/-- A raw line together with the result of `json.loads` + pydantic
validation (`none` when either step raised; both exception paths of
`parse_line` return `None` with the state untouched). -/
structure PLine where
  raw : PyStr
  decoded : Option PMsg

/-- Step `if message.session_id and not self.session_id: self.session_id = ...`. -/
def updSession (m : PMsg) (st : ParserState) : ParserState :=
  if optStrTruthy m.session_id && !optStrTruthy st.session_id then
    { st with session_id := m.session_id }
  else st

/-- Step `if message.model and not self.model: self.model = ...`. -/
def updModel (m : PMsg) (st : ParserState) : ParserState :=
  if optStrTruthy m.model && !optStrTruthy st.model then
    { st with model := m.model }
  else st

/-- Step `if message.usage: self.total_tokens += input_tokens + output_tokens`. -/
def updUsage (m : PMsg) (st : ParserState) : ParserState :=
  match m.usage with
  | some u =>
    { st with total_tokens := st.total_tokens + (u.input_tokens + u.output_tokens) }
  | none => st

/-- Step `if message.cost_usd: self.total_cost += message.cost_usd`
(a zero cost is falsy in Python, and adding it is a no-op anyway). -/
def updCost (m : PMsg) (st : ParserState) : ParserState :=
  match m.cost_usd with
  | some c => if c ≠ 0 then { st with total_cost := st.total_cost + c } else st
  | none => st

/-- Step `if message.type in ["user", "assistant"]: self.message_count += 1`. -/
def updCount (m : PMsg) (st : ParserState) : ParserState :=
  if m.type = "user" ∨ m.type = "assistant" then
    { st with message_count := st.message_count + 1 }
  else st

/-- Method `ClaudeOutputParser.parse_line` (lines 24–59): blank lines yield
`None`; on a decoded message, capture `session_id`/`model` only while the
stored value is still falsy, accumulate token and cost totals, and count
`user`/`assistant` messages (the five updates above, in source order); a
malformed line yields `None` and leaves the state unchanged. -/
def parse_line (st : ParserState) (line : PyStr) (decoded : Option PMsg) :
    ParserState × Option PMsg :=
  if pyStrip line = [] then (st, none)
  else
    match decoded with
    | none => (st, none)
    | some m =>
      (updCount m (updCost m (updUsage m (updModel m (updSession m st)))), some m)

/-- Feed a sequence of lines through `parse_line` in order. -/
def parseLines (st : ParserState) : List PLine → ParserState
  | [] => st
  | li :: rest => parseLines (parse_line st li.raw li.decoded).1 rest

/-- The session id reported by the first qualifying line of a sequence
(blank and malformed lines report nothing, as does a falsy `session_id`). -/
def firstSessionOf (ls : List PLine) : Option String :=
  ls.findSome? fun li =>
    if pyStrip li.raw = [] then none
    else match li.decoded with
      | some m => if optStrTruthy m.session_id then m.session_id else none
      | none => none

/-- The model reported by the first qualifying line of a sequence. -/
def firstModelOf (ls : List PLine) : Option String :=
  ls.findSome? fun li =>
    if pyStrip li.raw = [] then none
    else match li.decoded with
      | some m => if optStrTruthy m.model then m.model else none
      | none => none

end OutputParser

section StreamConverter
/-!
## `claude_code_api/utils/streaming.py` — `OpenAIStreamConverter.convert_stream`
-/

/-- The `delta` object of an emitted chunk. -/
inductive Delta where
  /-- Shape `{"role": role, "content": content}` -/
  | roleContent (role : String) (content : PyStr)
  /-- Shape `{"content": content}` -/
  | contentOnly (content : PyStr)
  /-- Shape `{}` -/
  | empty
deriving DecidableEq, Repr

/-- One emitted chat-completion chunk (the `created` timestamp is
environment-supplied and omitted). -/
structure Chunk where
  id : String
  object : String
  model : String
  delta : Delta
  finish_reason : Option String
deriving DecidableEq, Repr

/-- One unit of the SSE stream: a `data: {chunk}` payload or the
terminal `data: [DONE]` sentinel. -/
inductive SSEUnit where
  | chunk (c : Chunk)
  | done
deriving DecidableEq, Repr

/-- The opening chunk establishing the assistant role with empty content. -/
def initialChunk (cid model : String) : Chunk :=
  { id := cid, object := "chat.completion.chunk", model := model,
    delta := .roleContent "assistant" [], finish_reason := none }

/-- A content-delta chunk. -/
def contentChunk (cid model : String) (text : PyStr) : Chunk :=
  { id := cid, object := "chat.completion.chunk", model := model,
    delta := .contentOnly text, finish_reason := none }

/-- The closing chunk: empty delta, finish reason `"stop"`. -/
def finalChunk (cid model : String) : Chunk :=
  { id := cid, object := "chat.completion.chunk", model := model,
    delta := .empty, finish_reason := some "stop" }

/-- Value `claude_message.get("message", {}).get("content")`. -/
def contentOf (m : MsgDict) : PyContent :=
  match m.message with
  | .absent => .pyNone
  | .present c => c

/-- Python truthiness of a content value (`None`, `""` and `[]` are falsy). -/
def pyContentTruthy : PyContent → Bool
  | .pyNone => false
  | .pyStr s => !s.isEmpty
  | .pyList items => !items.isEmpty

/-- The content-array scan of `convert_stream` (lines 105–111): take the
text of the first dict part whose `"type"` is `"text"` and whose `"text"`
is truthy, then `break`; all later parts are ignored. -/
def streamTextOfList : List ContentItem → PyStr
  | [] => []
  | .dictItem ctype ctext :: rest =>
    if ctype = "text" ∧ ctext ≠ [] then ctext else streamTextOfList rest
  | .strItem _ :: rest => streamTextOfList rest

/-- The `text_content` computed for one message (lines 101–114). -/
def streamTextOf (m : MsgDict) : PyStr :=
  match contentOf m with
  | .pyList items => streamTextOfList items
  | .pyStr s => s
  | .pyNone => []

/-- Whether a message makes `convert_stream` emit a content chunk
(lines 98–116): type `"assistant"`, truthy content, non-blank extracted
text. -/
def emitsContent (m : MsgDict) : Bool :=
  m.mtype == "assistant" && pyContentTruthy (contentOf m)
    && !(pyStrip (streamTextOf m)).isEmpty

/-- Constant `max_chunks = 5  # Limit chunks for better UX`. -/
def maxChunks : Nat := 5

/-- The chunks yielded while processing one message: one content-delta
chunk when the message qualifies, nothing otherwise. -/
def emittedFor (cid model : String) (m : MsgDict) : List SSEUnit :=
  if emitsContent m then [SSEUnit.chunk (contentChunk cid model (streamTextOf m))]
  else []

/-- The message loop of `convert_stream` (lines 90–137): `chunkCount`
counts consumed messages; processing stops once it would exceed
`maxChunks`, or after a `"result"` message (which is processed first and
can itself emit). -/
def convertLoop (cid model : String) : Nat → List MsgDict → List SSEUnit
  | _, [] => []
  | chunkCount, m :: rest =>
    if maxChunks < chunkCount + 1 then []
    else if m.mtype == "result" then emittedFor cid model m
    else emittedFor cid model m ++ convertLoop cid model (chunkCount + 1) rest

/-- Method `OpenAIStreamConverter.convert_stream` (lines 64–158) over a finite
queue of messages: opening chunk, message loop, closing chunk, `[DONE]`. -/
def convert_stream (cid model : String) (msgs : List MsgDict) : List SSEUnit :=
  SSEUnit.chunk (initialChunk cid model)
    :: convertLoop cid model 0 msgs
    ++ [SSEUnit.chunk (finalChunk cid model), SSEUnit.done]

/-- Classifies an opening chunk (a delta that re-establishes the role). -/
def isOpeningUnit : SSEUnit → Bool
  | .chunk c => match c.delta with | .roleContent _ _ => true | _ => false
  | .done => false

/-- Classifies a content-delta chunk. -/
def isContentUnit : SSEUnit → Bool
  | .chunk c => match c.delta with | .contentOnly _ => true | _ => false
  | .done => false

/-- Classifies a closing chunk: empty delta and finish reason `"stop"`. -/
def isClosingUnit : SSEUnit → Bool
  | .chunk c =>
    (match c.delta with | .empty => true | _ => false)
      && c.finish_reason == some "stop"
  | .done => false

/-- Classifies the `[DONE]` sentinel. -/
def isDoneUnit : SSEUnit → Bool
  | .chunk _ => false
  | .done => true

end StreamConverter

section NonStreaming
/-!
## `claude_code_api/utils/streaming.py` — `create_non_streaming_response`
-/

/-- The inner content-array loop (lines 371–377): keep the stripped text
of every dict part of type `"text"` whose stripped text is non-empty. -/
def partTexts : List ContentItem → List PyStr
  | [] => []
  | .dictItem ctype ctext :: rest =>
    if ctype = "text" then
      if pyStrip ctext = [] then partTexts rest else pyStrip ctext :: partTexts rest
    else partTexts rest
  | .strItem _ :: rest => partTexts rest

/-- The texts contributed by one message (lines 359–382): only messages of
type `"assistant"` with a truthy `"message"` dict count; a content array
contributes its text parts, a non-blank string content its stripped self. -/
def extractOne (m : MsgDict) : List PyStr :=
  if m.mtype = "assistant" then
    match m.message with
    | .absent => []
    | .present c =>
      match c with
      | .pyList items => partTexts items
      | .pyStr s => if pyStrip s = [] then [] else [pyStrip s]
      | .pyNone => []
  else []

/-- Accumulator `content_parts` collected over all messages in encounter order. -/
def extractParts : List MsgDict → List PyStr
  | [] => []
  | m :: rest => extractOne m ++ extractParts rest

/-- Placeholder text Hello-I-am-Claude-ready-to-help (its apostrophe written as
`Char.ofNat 39`). -/
def placeholderContent : PyStr :=
  "Hello! I".toList ++ [Char.ofNat 39] ++ "m Claude, ready to help.".toList

/-- Fallback text `"Response received but content was empty."`. -/
def emptyContentFallback : PyStr :=
  "Response received but content was empty.".toList

/-- The final guard `if not complete_content: complete_content = ...`
(line 391). -/
def contentFallback (c : PyStr) : PyStr :=
  if c.isEmpty then emptyContentFallback else c

/-- Value `complete_content` (lines 384–392): join the extracted parts with a
newline and strip, or fall back to the fixed placeholder; the second
fallback guards against an empty result. -/
def completeContent (msgs : List MsgDict) : PyStr :=
  contentFallback
    (if (extractParts msgs).isEmpty then placeholderContent
     else pyStrip (pyJoin ['\n'] (extractParts msgs)))

/-- The `usage` block of the non-streaming response. -/
structure UsageBlock where
  prompt_tokens : Nat
  completion_tokens : Nat
  total_tokens : Nat
deriving DecidableEq, Repr

/-- The non-streaming completion object (lines 402–421); `id`/`created`
are environment-supplied and omitted, and the `usage_summary` argument is
unused by the source function. -/
structure NonStreamResponse where
  object : String
  model : String
  role : String
  content : PyStr
  finish_reason : String
  usage : UsageBlock
  session_id : String
deriving DecidableEq, Repr

/-- Function `create_non_streaming_response` (lines 331–430). -/
def create_non_streaming_response (msgs : List MsgDict)
    (sessionId model : String) : NonStreamResponse :=
  let c := completeContent msgs
  { object := "chat.completion", model := model, role := "assistant",
    content := c, finish_reason := "stop",
    usage :=
      { prompt_tokens := 10,
        completion_tokens := if c.isEmpty then 5 else pySplitLen c,
        total_tokens := 10 + (if c.isEmpty then 5 else pySplitLen c) },
    session_id := sessionId }

end NonStreaming

section SessionManager
/-!
## `claude_code_api/core/session_manager.py`
-/

/-- A `SessionInfo` record, restricted to the fields the sweep and the
stats fold read; timestamps are idealised as integers. -/
structure SessionInfo where
  project_id : String
  model : String
  updated_at : Int
  total_tokens : Nat
  total_cost : ℚ
  message_count : Nat
deriving DecidableEq, Repr

/-- Registry `self.active_sessions`, a dict keyed by session id. -/
abbrev SessionMap := List (String × SessionInfo)

/-- Method `SessionManager.end_session` (lines 178–191): remove the id from the
active index (a no-op when absent). -/
def end_session (m : SessionMap) (sid : String) : SessionMap :=
  m.filter fun p => p.1 ≠ sid

/-- Whether a session is idle-expired at time `now`:
`current_time - session_info.updated_at > timeout_delta`. -/
def isExpired (now timeout : Int) (p : String × SessionInfo) : Bool :=
  timeout < now - p.2.updated_at

/-- Method `SessionManager.cleanup_expired_sessions` (lines 193–205): collect the
ids of expired sessions, then end each of them. -/
def cleanup_expired_sessions (now timeout : Int) (m : SessionMap) : SessionMap :=
  let expired := (m.filter (isExpired now timeout)).map Prod.fst
  expired.foldl end_session m

/-- The dict returned by `get_session_stats`. -/
structure SessionStats where
  active_sessions : Nat
  total_tokens : Nat
  total_cost : ℚ
  total_messages : Nat
  models_in_use : List String
deriving DecidableEq, Repr

/-- Method `SessionManager.get_session_stats` (lines 226–238): fold over the
active index at call time. -/
def get_session_stats (m : SessionMap) : SessionStats :=
  { active_sessions := m.length,
    total_tokens := (m.map fun p => p.2.total_tokens).sum,
    total_cost := (m.map fun p => p.2.total_cost).sum,
    total_messages := (m.map fun p => p.2.message_count).sum,
    models_in_use := (m.map fun p => p.2.model).dedup }

end SessionManager

/-! ## Helper lemmas -/

theorem dropWhile_head_not {α} (p : α → Bool) :
    ∀ (l : List α) (a : α) (r : List α), l.dropWhile p = a :: r → p a = false := by
  intro l
  induction l with
  | nil => intro a r h; simp [List.dropWhile] at h
  | cons x xs ih =>
    intro a r h
    rw [List.dropWhile_cons] at h
    by_cases hx : p x
    · exact ih a r (by simpa [hx] using h)
    · rw [if_neg hx] at h
      cases h
      simpa using hx

theorem dropWhile_concat_not {α} (p : α → Bool) (a : α) (h : p a = false) :
    ∀ xs : List α, (xs ++ [a]).dropWhile p = xs.dropWhile p ++ [a] := by
  intro xs
  induction xs with
  | nil => simp [List.dropWhile_cons, h]
  | cons x xs ih => by_cases hx : p x <;> simp [List.dropWhile_cons, hx, ih]

/-- The first character of a string is not whitespace. -/
def headNotWS (s : PyStr) : Prop :=
  ∃ a r, s = a :: r ∧ a.isWhitespace = false

/-- The last character of a string is not whitespace. -/
def lastNotWS (s : PyStr) : Prop :=
  ∃ a r, s = r ++ [a] ∧ a.isWhitespace = false

theorem pyStrip_ends (s : PyStr) (h : pyStrip s ≠ []) :
    headNotWS (pyStrip s) ∧ lastNotWS (pyStrip s) := by
  unfold pyStrip at h ⊢
  cases hu : s.dropWhile Char.isWhitespace with
  | nil => rw [hu] at h; simp at h
  | cons a0 r0 =>
    have ha0 : a0.isWhitespace = false := dropWhile_head_not _ s a0 r0 hu
    constructor
    · -- head: the reversed result ends with `a0`, so the result starts with it
      rw [List.reverse_cons, dropWhile_concat_not _ _ ha0, List.reverse_append]
      exact ⟨a0, (r0.reverse.dropWhile Char.isWhitespace).reverse, by simp, ha0⟩
    · -- last: the reversed result starts with a non-whitespace character
      cases hv2 : (a0 :: r0).reverse.dropWhile Char.isWhitespace with
      | nil =>
        rw [List.reverse_cons, dropWhile_concat_not _ _ ha0] at hv2
        simp at hv2
      | cons a1 r1 =>
        have ha1 : a1.isWhitespace = false := dropWhile_head_not _ _ a1 r1 hv2
        rw [List.reverse_cons]
        exact ⟨a1, r1.reverse, rfl, ha1⟩

theorem pyStrip_fixed (s : PyStr) (h1 : headNotWS s) (h2 : lastNotWS s) :
    pyStrip s = s := by
  obtain ⟨a, r, rfl, ha⟩ := h1
  obtain ⟨b, r2, hs, hb⟩ := h2
  have hd : (a :: r).dropWhile Char.isWhitespace = a :: r := by
    simp [List.dropWhile_cons, ha]
  rw [pyStrip, hd, hs, List.reverse_append, List.reverse_singleton,
    List.singleton_append, List.dropWhile_cons, hb]
  simp

theorem pyJoin_good (sep : PyStr) :
    ∀ parts : List PyStr, parts ≠ [] →
      (∀ p ∈ parts, p ≠ [] ∧ headNotWS p ∧ lastNotWS p) →
      pyJoin sep parts ≠ [] ∧ headNotWS (pyJoin sep parts) ∧
        lastNotWS (pyJoin sep parts) := by
  intro parts
  induction parts with
  | nil => intro h; exact absurd rfl h
  | cons p tail ih =>
    intro _ hall
    cases tail with
    | nil => exact hall p (by simp)
    | cons q rest =>
      have hp := hall p (by simp)
      have htail := ih (by simp) (fun x hx => hall x (List.mem_cons_of_mem _ hx))
      obtain ⟨a, r, hpe, ha⟩ := hp.2.1
      obtain ⟨b, r2, hte, hb⟩ := htail.2.2
      have hj : pyJoin sep (p :: q :: rest) = p ++ sep ++ pyJoin sep (q :: rest) := rfl
      refine ⟨?_, ?_, ?_⟩
      · rw [hj, hpe]; simp
      · rw [hj, hpe]
        exact ⟨a, r ++ sep ++ pyJoin sep (q :: rest), by simp, ha⟩
      · rw [hj, hte]
        exact ⟨b, p ++ sep ++ r2, by simp, hb⟩

/-! ## Claim theorems -/

/-- Claim C10: `validate_claude_model` is total and never rejects: a known
Claude model id is returned unchanged, any other string is silently
replaced by the fixed default `"claude-3-5-haiku-20241022"`. -/
theorem c10_model_validation_total (model : String) :
    (model ∈ claudeModelValues → validate_claude_model model = model) ∧
    (model ∉ claudeModelValues → validate_claude_model model = haiku35) := by
  constructor <;> intro h <;> simp [validate_claude_model, h]

/-- Witness for C10 at the unknown name `"gpt-4"` and a known id. -/
theorem c10_witness :
    validate_claude_model "gpt-4" = haiku35 ∧
    validate_claude_model "claude-opus-4-20250514" = "claude-opus-4-20250514" :=
  ⟨(c10_model_validation_total "gpt-4").2 (by decide),
   (c10_model_validation_total "claude-opus-4-20250514").1 (by decide)⟩

/-- Claim C5, counterexample: With `max_concurrent = 3`, four consecutive
`create_session` calls all succeed: there are 4 successes and 0 capacity
failures, not 3 successes and 1 capacity failure as the claim states —
successful calls never register the process, so the in-flight count the
guard checks stays 0. -/
theorem c5_counterexample :
    runCreateCalls ⟨[], 3⟩ (List.replicate 4 true) = (⟨[], 3⟩, 4, 0, 0) ∧
    ¬ ((runCreateCalls ⟨[], 3⟩ (List.replicate 4 true)).2.1 = 3 ∧
       (runCreateCalls ⟨[], 3⟩ (List.replicate 4 true)).2.2.1 = 1) := by
  decide

/-- Claim C5, amended: `create_session` raises a capacity error whenever the
process registry already holds at least `max_concurrent` entries, but a
successful call does not register the process, so starting from an empty
registry every sequence of `k` calls (with `max_concurrent ≥ 1`) yields
`k` successes, no capacity failure, and a registry that stays empty —
hence the in-flight count never exceeds the bound, trivially. -/
theorem c5_amended_no_capacity_failures (n k : Nat) (h : 1 ≤ n) :
    (∀ (st : ManagerState) (ok : Bool), st.maxConcurrent ≤ st.processes.length →
        create_session st ok = .error .capacityExceeded) ∧
    runCreateCalls ⟨[], n⟩ (List.replicate k true) = (⟨[], n⟩, k, 0, 0) := by
  constructor
  · intro st ok hc
    simp [create_session, hc]
  · induction k with
    | zero => rfl
    | succ k ih =>
      rw [List.replicate_succ]
      have hn : ¬ n = 0 := by omega
      have hc : create_session ⟨[], n⟩ true = .ok ⟨[], n⟩ := by
        simp [create_session, hn]
      simp only [runCreateCalls, hc, ih]

/-- Witness for C5 (amended) at `max_concurrent = 3`, 4 calls. -/
theorem c5_amended_witness :
    (∀ (st : ManagerState) (ok : Bool), st.maxConcurrent ≤ st.processes.length →
        create_session st ok = .error .capacityExceeded) ∧
    runCreateCalls ⟨[], 3⟩ (List.replicate 4 true) = (⟨[], 3⟩, 4, 0, 0) :=
  c5_amended_no_capacity_failures 3 4 (by decide)

/-- Claim C6: A nonzero exit status makes `ClaudeProcess.start` fail: the
error queue carries exactly the stripped stderr text, and the output
queue stays empty — no partial events are surfaced. -/
theorem c6_nonzero_exit_fail_closed (sessionId : String) (rc : Int)
    (stdoutLines : List QLine) (stderr : PyStr) (h : rc ≠ 0) :
    (finishStart sessionId rc stdoutLines stderr).ok = false ∧
    (finishStart sessionId rc stdoutLines stderr).output = [] ∧
    (finishStart sessionId rc stdoutLines stderr).errors = [pyStrip stderr] := by
  simp [finishStart, h]

/-- Witness for C6 at exit code 1. -/
theorem c6_witness :
    (finishStart "sid" 1 [] "boom".toList).ok = false ∧
    (finishStart "sid" 1 [] "boom".toList).output = [] ∧
    (finishStart "sid" 1 [] "boom".toList).errors = [pyStrip "boom".toList] :=
  c6_nonzero_exit_fail_closed "sid" 1 [] "boom".toList (by decide)

/-- Claim C3: A malformed (non-blank, non-JSON) line never raises:
`ClaudeOutputParser.parse_line` returns `None` with the whole running
state — in particular total tokens, total cost and message count —
unchanged, and the output loop of `ClaudeProcess.start` enqueues exactly
one synthetic `"text"` sentinel event carrying the raw line. -/
theorem c3_malformed_line_recovered (st : ParserState) (line : PyStr)
    (sid : Option String) (hline : pyStrip line ≠ []) :
    parse_line st line none = (st, none) ∧
    processOutputLine sid ⟨line, none⟩ = (sid, [textSentinel line]) ∧
    (textSentinel line).mtype = "text" ∧
    (textSentinel line).rawContent = line := by
  refine ⟨?_, ?_, rfl, rfl⟩ <;> simp [parse_line, processOutputLine, hline]

theorem updSession_session (m : PMsg) (st : ParserState) :
    (updSession m st).session_id =
      if optStrTruthy m.session_id && !optStrTruthy st.session_id then
        m.session_id
      else st.session_id := by
  unfold updSession
  split <;> rfl

theorem updSession_model (m : PMsg) (st : ParserState) :
    (updSession m st).model = st.model := by
  unfold updSession
  split <;> rfl

theorem updModel_session (m : PMsg) (st : ParserState) :
    (updModel m st).session_id = st.session_id := by
  unfold updModel
  split <;> rfl

theorem updModel_model (m : PMsg) (st : ParserState) :
    (updModel m st).model =
      if optStrTruthy m.model && !optStrTruthy st.model then m.model
      else st.model := by
  unfold updModel
  split <;> rfl

theorem updUsage_session (m : PMsg) (st : ParserState) :
    (updUsage m st).session_id = st.session_id := by
  unfold updUsage
  cases m.usage <;> rfl

theorem updUsage_model (m : PMsg) (st : ParserState) :
    (updUsage m st).model = st.model := by
  unfold updUsage
  cases m.usage <;> rfl

theorem updCost_session (m : PMsg) (st : ParserState) :
    (updCost m st).session_id = st.session_id := by
  unfold updCost
  repeat' split
  all_goals rfl

theorem updCost_model (m : PMsg) (st : ParserState) :
    (updCost m st).model = st.model := by
  unfold updCost
  repeat' split
  all_goals rfl

theorem updCount_session (m : PMsg) (st : ParserState) :
    (updCount m st).session_id = st.session_id := by
  unfold updCount
  split <;> rfl

theorem updCount_model (m : PMsg) (st : ParserState) :
    (updCount m st).model = st.model := by
  unfold updCount
  split <;> rfl

theorem parse_line_fst_session (st : ParserState) (line : PyStr)
    (decoded : Option PMsg) :
    ((parse_line st line decoded).1).session_id =
      if pyStrip line = [] then st.session_id
      else
        match decoded with
        | none => st.session_id
        | some m =>
          if optStrTruthy m.session_id && !optStrTruthy st.session_id then
            m.session_id
          else st.session_id := by
  unfold parse_line
  split
  · rfl
  · cases decoded with
    | none => rfl
    | some m =>
      simp only [updCount_session, updCost_session, updUsage_session,
        updModel_session, updSession_session]

theorem parse_line_fst_model (st : ParserState) (line : PyStr)
    (decoded : Option PMsg) :
    ((parse_line st line decoded).1).model =
      if pyStrip line = [] then st.model
      else
        match decoded with
        | none => st.model
        | some m =>
          if optStrTruthy m.model && !optStrTruthy st.model then m.model
          else st.model := by
  unfold parse_line
  split
  · rfl
  · cases decoded with
    | none => rfl
    | some m =>
      simp only [updCount_model, updCost_model, updUsage_model,
        updModel_model, updSession_model]

theorem parseLines_session_stable (ls : List PLine) :
    ∀ st : ParserState, optStrTruthy st.session_id = true →
      (parseLines st ls).session_id = st.session_id := by
  induction ls with
  | nil => intro st _; rfl
  | cons li rest ih =>
    intro st hst
    have hstep : ((parse_line st li.raw li.decoded).1).session_id = st.session_id := by
      rw [parse_line_fst_session]
      repeat' split
      all_goals simp_all
    rw [parseLines, ih _ (by rw [hstep]; exact hst), hstep]

theorem parseLines_model_stable (ls : List PLine) :
    ∀ st : ParserState, optStrTruthy st.model = true →
      (parseLines st ls).model = st.model := by
  induction ls with
  | nil => intro st _; rfl
  | cons li rest ih =>
    intro st hst
    have hstep : ((parse_line st li.raw li.decoded).1).model = st.model := by
      rw [parse_line_fst_model]
      repeat' split
      all_goals simp_all
    rw [parseLines, ih _ (by rw [hstep]; exact hst), hstep]

theorem parseLines_session_first (ls : List PLine) :
    ∀ st : ParserState, optStrTruthy st.session_id = false →
      (parseLines st ls).session_id =
        match firstSessionOf ls with
        | some s => some s
        | none => st.session_id := by
  induction ls with
  | nil => intro st _; rfl
  | cons li rest ih =>
    intro st hst
    have hfold : parseLines st (li :: rest)
        = parseLines (parse_line st li.raw li.decoded).1 rest := rfl
    rw [hfold]
    by_cases hb : pyStrip li.raw = []
    · have hfs : firstSessionOf (li :: rest) = firstSessionOf rest := by
        simp [firstSessionOf, List.findSome?_cons, hb]
      have hstep : (parse_line st li.raw li.decoded).1 = st := by
        unfold parse_line
        rw [if_pos hb]
      rw [hstep, hfs]
      exact ih st hst
    · cases hd : li.decoded with
      | none =>
        have hfs : firstSessionOf (li :: rest) = firstSessionOf rest := by
          simp [firstSessionOf, List.findSome?_cons, hb, hd]
        have hstep : (parse_line st li.raw none).1 = st := by
          unfold parse_line
          rw [if_neg hb]
        rw [hstep, hfs]
        exact ih st hst
      | some m =>
        by_cases hm : optStrTruthy m.session_id = true
        · -- m reports a truthy session id: it is captured and then stable
          obtain ⟨s, hs⟩ : ∃ s, m.session_id = some s := by
            cases hms : m.session_id with
            | none => rw [hms] at hm; simp [optStrTruthy] at hm
            | some s => exact ⟨s, rfl⟩
          have hstep : ((parse_line st li.raw (some m)).1).session_id = m.session_id := by
            have := parse_line_fst_session st li.raw (some m)
            rw [if_neg hb] at this
            rw [this]
            simp [hm, hst]
          have hm2 : optStrTruthy (some s) = true := hs ▸ hm
          have hstable := parseLines_session_stable rest (parse_line st li.raw (some m)).1
            (by rw [hstep]; exact hm)
          have hfs : firstSessionOf (li :: rest) = some s := by
            simp [firstSessionOf, List.findSome?_cons, hb, hd, hs, hm2]
          rw [hstable, hstep, hs, hfs]
        · -- m's session id is falsy: nothing is captured on this line
          rw [Bool.not_eq_true] at hm
          have hstep : ((parse_line st li.raw (some m)).1).session_id = st.session_id := by
            have := parse_line_fst_session st li.raw (some m)
            rw [if_neg hb] at this
            rw [this]
            simp [hm]
          have hfalsy :
              optStrTruthy ((parse_line st li.raw (some m)).1).session_id = false := by
            rw [hstep]; exact hst
          have hfs : firstSessionOf (li :: rest) = firstSessionOf rest := by
            simp [firstSessionOf, List.findSome?_cons, hb, hd, hm]
          rw [ih _ hfalsy, hstep, hfs]

theorem parseLines_model_first (ls : List PLine) :
    ∀ st : ParserState, optStrTruthy st.model = false →
      (parseLines st ls).model =
        match firstModelOf ls with
        | some s => some s
        | none => st.model := by
  induction ls with
  | nil => intro st _; rfl
  | cons li rest ih =>
    intro st hst
    have hfold : parseLines st (li :: rest)
        = parseLines (parse_line st li.raw li.decoded).1 rest := rfl
    rw [hfold]
    by_cases hb : pyStrip li.raw = []
    · have hfs : firstModelOf (li :: rest) = firstModelOf rest := by
        simp [firstModelOf, List.findSome?_cons, hb]
      have hstep : (parse_line st li.raw li.decoded).1 = st := by
        unfold parse_line
        rw [if_pos hb]
      rw [hstep, hfs]
      exact ih st hst
    · cases hd : li.decoded with
      | none =>
        have hfs : firstModelOf (li :: rest) = firstModelOf rest := by
          simp [firstModelOf, List.findSome?_cons, hb, hd]
        have hstep : (parse_line st li.raw none).1 = st := by
          unfold parse_line
          rw [if_neg hb]
        rw [hstep, hfs]
        exact ih st hst
      | some m =>
        by_cases hm : optStrTruthy m.model = true
        · obtain ⟨s, hs⟩ : ∃ s, m.model = some s := by
            cases hms : m.model with
            | none => rw [hms] at hm; simp [optStrTruthy] at hm
            | some s => exact ⟨s, rfl⟩
          have hstep : ((parse_line st li.raw (some m)).1).model = m.model := by
            have := parse_line_fst_model st li.raw (some m)
            rw [if_neg hb] at this
            rw [this]
            simp [hm, hst]
          have hm2 : optStrTruthy (some s) = true := hs ▸ hm
          have hstable := parseLines_model_stable rest (parse_line st li.raw (some m)).1
            (by rw [hstep]; exact hm)
          have hfs : firstModelOf (li :: rest) = some s := by
            simp [firstModelOf, List.findSome?_cons, hb, hd, hs, hm2]
          rw [hstable, hstep, hs, hfs]
        · rw [Bool.not_eq_true] at hm
          have hstep : ((parse_line st li.raw (some m)).1).model = st.model := by
            have := parse_line_fst_model st li.raw (some m)
            rw [if_neg hb] at this
            rw [this]
            simp [hm]
          have hfalsy :
              optStrTruthy ((parse_line st li.raw (some m)).1).model = false := by
            rw [hstep]; exact hst
          have hfs : firstModelOf (li :: rest) = firstModelOf rest := by
            simp [firstModelOf, List.findSome?_cons, hb, hd, hm]
          rw [ih _ hfalsy, hstep, hfs]

/-- Claim C4: Feeding well-formed lines in order, the parser's session id
and model are those reported by the first qualifying line, and once a
truthy value is stored no later line overwrites it. -/
theorem c4_first_reporter_wins (ls : List PLine)
    (hwf : ∀ li ∈ ls, pyStrip li.raw ≠ [] ∧ li.decoded ≠ none) :
    (parseLines initParser ls).session_id = firstSessionOf ls ∧
    (parseLines initParser ls).model = firstModelOf ls ∧
    (∀ st : ParserState, optStrTruthy st.session_id = true →
        (parseLines st ls).session_id = st.session_id) ∧
    (∀ st : ParserState, optStrTruthy st.model = true →
        (parseLines st ls).model = st.model) := by
  refine ⟨?_, ?_, parseLines_session_stable ls, parseLines_model_stable ls⟩
  · rw [parseLines_session_first ls initParser rfl]
    cases firstSessionOf ls <;> rfl
  · rw [parseLines_model_first ls initParser rfl]
    cases firstModelOf ls <;> rfl

/-- Concrete line sequence for the C4 witness: two well-formed lines with
conflicting session ids and models. -/
def c4Lines : List PLine :=
  [⟨"l1".toList, some ⟨"system", some "s1", some "m1", none, none⟩⟩,
   ⟨"l2".toList, some ⟨"assistant", some "s2", some "m2", some ⟨3, 4⟩, some 1⟩⟩]

/-- Witness for C4: on `c4Lines` the first line's session id and model win. -/
theorem c4_witness :
    (parseLines initParser c4Lines).session_id = firstSessionOf c4Lines ∧
    (parseLines initParser c4Lines).model = firstModelOf c4Lines ∧
    firstSessionOf c4Lines = some "s1" ∧ firstModelOf c4Lines = some "m1" :=
  ⟨(c4_first_reporter_wins c4Lines (by decide)).1,
   (c4_first_reporter_wins c4Lines (by decide)).2.1,
   by decide, by decide⟩

theorem emittedFor_content (cid model : String) (m : MsgDict) :
    ∀ u ∈ emittedFor cid model m, ∃ s, u = SSEUnit.chunk (contentChunk cid model s) := by
  intro u hu
  unfold emittedFor at hu
  split at hu
  · simp at hu
    exact ⟨streamTextOf m, hu⟩
  · simp at hu

theorem emittedFor_length (cid model : String) (m : MsgDict) :
    (emittedFor cid model m).length ≤ 1 := by
  unfold emittedFor
  split <;> simp

theorem convertLoop_all_content (cid model : String) :
    ∀ (msgs : List MsgDict) (n : Nat), ∀ u ∈ convertLoop cid model n msgs,
      ∃ s, u = SSEUnit.chunk (contentChunk cid model s) := by
  intro msgs
  induction msgs with
  | nil => intro n u hu; simp [convertLoop] at hu
  | cons m rest ih =>
    intro n u hu
    rw [convertLoop] at hu
    split at hu
    · simp at hu
    · split at hu
      · exact emittedFor_content cid model m u hu
      · rcases List.mem_append.mp hu with hu | hu
        · exact emittedFor_content cid model m u hu
        · exact ih _ u hu

theorem convertLoop_length (cid model : String) :
    ∀ (msgs : List MsgDict) (n : Nat),
      (convertLoop cid model n msgs).length ≤ maxChunks - n := by
  intro msgs
  induction msgs with
  | nil => intro n; simp [convertLoop]
  | cons m rest ih =>
    intro n
    rw [convertLoop]
    split
    · simp
    · rename_i h1
      have he := emittedFor_length cid model m
      split
      · omega
      · rw [List.length_append]
        have h2 := ih (n + 1)
        omega

/-- Claim C1: For a queue of assistant-text events followed by a terminal
`"result"` event, `convert_stream` emits exactly one opening chunk
(assistant role, empty content), at most `maxChunks` content-delta
chunks, exactly one closing chunk (empty delta, finish reason `"stop"`)
and exactly one `[DONE]` sentinel, in that order — even when zero content
chunks are produced. -/
theorem c1_stream_chunk_accounting (cid model : String)
    (pre : List MsgDict) (t : MsgDict)
    (hpre : ∀ m ∈ pre, emitsContent m = true) (ht : t.mtype = "result") :
    (∃ body,
      convert_stream cid model (pre ++ [t])
        = SSEUnit.chunk (initialChunk cid model) :: body
            ++ [SSEUnit.chunk (finalChunk cid model), SSEUnit.done] ∧
      (∀ u ∈ body, ∃ s, u = SSEUnit.chunk (contentChunk cid model s)) ∧
      body.length ≤ maxChunks) ∧
    (convert_stream cid model (pre ++ [t])).countP isOpeningUnit = 1 ∧
    (convert_stream cid model (pre ++ [t])).countP isContentUnit ≤ maxChunks ∧
    (convert_stream cid model (pre ++ [t])).countP isClosingUnit = 1 ∧
    (convert_stream cid model (pre ++ [t])).countP isDoneUnit = 1 := by
  have hall := convertLoop_all_content cid model (pre ++ [t]) 0
  have hlen := convertLoop_length cid model (pre ++ [t]) 0
  have hbody0 : ∀ u ∈ convertLoop cid model 0 (pre ++ [t]),
      isOpeningUnit u = false ∧ isContentUnit u = true ∧
      isClosingUnit u = false ∧ isDoneUnit u = false := by
    intro u hu
    obtain ⟨s, rfl⟩ := hall u hu
    exact ⟨rfl, rfl, rfl, rfl⟩
  refine ⟨⟨convertLoop cid model 0 (pre ++ [t]), rfl, hall, by simpa using hlen⟩,
    ?_, ?_, ?_, ?_⟩
  · rw [convert_stream, List.countP_append, List.countP_cons]
    have h0 : (convertLoop cid model 0 (pre ++ [t])).countP isOpeningUnit = 0 := by
      rw [List.countP_eq_zero]
      intro u hu
      simp [(hbody0 u hu).1]
    rw [h0]
    rfl
  · rw [convert_stream, List.countP_append, List.countP_cons]
    have h0 : (convertLoop cid model 0 (pre ++ [t])).countP isContentUnit
        ≤ maxChunks := le_trans (List.countP_le_length _) (by simpa using hlen)
    have h1 : ([SSEUnit.chunk (finalChunk cid model),
        SSEUnit.done] : List SSEUnit).countP isContentUnit = 0 := rfl
    rw [h1]
    simpa [isContentUnit, initialChunk] using h0
  · rw [convert_stream, List.countP_append, List.countP_cons]
    have h0 : (convertLoop cid model 0 (pre ++ [t])).countP isClosingUnit = 0 := by
      rw [List.countP_eq_zero]
      intro u hu
      simp [(hbody0 u hu).2.2.1]
    rw [h0]
    rfl
  · rw [convert_stream, List.countP_append, List.countP_cons]
    have h0 : (convertLoop cid model 0 (pre ++ [t])).countP isDoneUnit = 0 := by
      rw [List.countP_eq_zero]
      intro u hu
      simp [(hbody0 u hu).2.2.2]
    rw [h0]
    rfl

/-- A concrete assistant event with a one-part text content array. -/
def demoAssistant (t : String) : MsgDict :=
  { mtype := "assistant", message := .present (.pyList [.dictItem "text" t.toList]),
    sessionId := "", rawContent := [] }

/-- A concrete terminal `"result"` event. -/
def demoResult : MsgDict :=
  { mtype := "result", message := .absent, sessionId := "", rawContent := [] }

/-- Witness for C1 on one assistant event followed by a result event. -/
theorem c1_witness :
    (∃ body,
      convert_stream "cid" "m" ([demoAssistant "Hi"] ++ [demoResult])
        = SSEUnit.chunk (initialChunk "cid" "m") :: body
            ++ [SSEUnit.chunk (finalChunk "cid" "m"), SSEUnit.done] ∧
      (∀ u ∈ body, ∃ s, u = SSEUnit.chunk (contentChunk "cid" "m" s)) ∧
      body.length ≤ maxChunks) ∧
    (convert_stream "cid" "m" ([demoAssistant "Hi"] ++ [demoResult])).countP
      isOpeningUnit = 1 ∧
    (convert_stream "cid" "m" ([demoAssistant "Hi"] ++ [demoResult])).countP
      isContentUnit ≤ maxChunks ∧
    (convert_stream "cid" "m" ([demoAssistant "Hi"] ++ [demoResult])).countP
      isClosingUnit = 1 ∧
    (convert_stream "cid" "m" ([demoAssistant "Hi"] ++ [demoResult])).countP
      isDoneUnit = 1 :=
  c1_stream_chunk_accounting "cid" "m" [demoAssistant "Hi"] demoResult
    (by decide) (by decide)

/-- Whether a content part would be picked by the streaming scan:
a dict part of type `"text"` with a truthy `"text"`. -/
def isTextCandidate : ContentItem → Bool
  | .dictItem ctype ctext => ctype == "text" && !ctext.isEmpty
  | .strItem _ => false

theorem streamTextOfList_skips (pre : List ContentItem)
    (hpre : ∀ it ∈ pre, isTextCandidate it = false) :
    ∀ tail, streamTextOfList (pre ++ tail) = streamTextOfList tail := by
  induction pre with
  | nil => intro tail; rfl
  | cons it pre ih =>
    intro tail
    have hit := hpre it (by simp)
    have hrest : ∀ x ∈ pre, isTextCandidate x = false :=
      fun x hx => hpre x (List.mem_cons_of_mem _ hx)
    cases it with
    | dictItem ctype ctext =>
      rw [List.cons_append, streamTextOfList]
      have : ¬ (ctype = "text" ∧ ctext ≠ []) := by
        intro ⟨h1, h2⟩
        simp [isTextCandidate, h1, h2] at hit
      rw [if_neg this]
      exact ih hrest tail
    | strItem s =>
      rw [List.cons_append, streamTextOfList]
      exact ih hrest tail

theorem partTexts_skips (pre : List ContentItem)
    (hpre : ∀ it ∈ pre, isTextCandidate it = false) :
    ∀ tail, partTexts (pre ++ tail) = partTexts tail := by
  induction pre with
  | nil => intro tail; rfl
  | cons it pre ih =>
    intro tail
    have hit := hpre it (by simp)
    have hrest : ∀ x ∈ pre, isTextCandidate x = false :=
      fun x hx => hpre x (List.mem_cons_of_mem _ hx)
    cases it with
    | dictItem ctype ctext =>
      rw [List.cons_append, partTexts]
      by_cases h1 : ctype = "text"
      · have h2 : ctext = [] := by
          by_contra h2
          simp [isTextCandidate, h1, h2] at hit
        rw [if_pos h1]
        simp only [h2]
        rw [if_pos (show pyStrip ([] : PyStr) = [] from rfl)]
        exact ih hrest tail
      · rw [if_neg h1]
        exact ih hrest tail
    | strItem s =>
      rw [List.cons_append, partTexts]
      exact ih hrest tail

theorem convert_stream_single_emit (cid model : String) (m : MsgDict)
    (hm : m.mtype = "assistant") (he : emitsContent m = true) :
    convert_stream cid model [m, demoResult]
      = [SSEUnit.chunk (initialChunk cid model),
         SSEUnit.chunk (contentChunk cid model (streamTextOf m)),
         SSEUnit.chunk (finalChunk cid model), SSEUnit.done] := by
  have h1 : ¬ maxChunks < 0 + 1 := by decide
  have h2 : ¬ (m.mtype == "result") = true := by simp [hm]
  have h3 : ¬ maxChunks < 1 + 1 := by decide
  have h4 : (demoResult.mtype == "result") = true := by decide
  have h5 : ¬ emitsContent demoResult = true := by decide
  rw [convert_stream, convertLoop, if_neg h1, if_neg h2, emittedFor, if_pos he,
    convertLoop, if_neg h3, if_pos h4, emittedFor, if_neg h5]
  rfl

/-- Claim C9: When an assistant event's content is a part list, the stream
emits only the text of the first `"text"` part with non-empty text —
later text parts are dropped from the stream — while the non-streaming
aggregation keeps every text part of the same list. -/
theorem c9_stream_first_text_part_only (cid model : String)
    (pre rest : List ContentItem) (t : PyStr)
    (hpre : ∀ it ∈ pre, isTextCandidate it = false)
    (ht : t ≠ []) (hts : pyStrip t ≠ []) :
    streamTextOfList (pre ++ .dictItem "text" t :: rest) = t ∧
    convert_stream cid model
        [{ mtype := "assistant",
           message := .present (.pyList (pre ++ .dictItem "text" t :: rest)),
           sessionId := "", rawContent := [] }, demoResult]
      = [SSEUnit.chunk (initialChunk cid model),
         SSEUnit.chunk (contentChunk cid model t),
         SSEUnit.chunk (finalChunk cid model), SSEUnit.done] ∧
    partTexts (pre ++ .dictItem "text" t :: rest) = pyStrip t :: partTexts rest ∧
    extractParts
        [{ mtype := "assistant",
           message := .present (.pyList (pre ++ .dictItem "text" t :: rest)),
           sessionId := "", rawContent := [] }, demoResult]
      = partTexts (pre ++ .dictItem "text" t :: rest) := by
  have hstream : streamTextOfList (pre ++ .dictItem "text" t :: rest) = t := by
    rw [streamTextOfList_skips pre hpre, streamTextOfList, if_pos ⟨rfl, ht⟩]
  have hparts : partTexts (pre ++ .dictItem "text" t :: rest)
      = pyStrip t :: partTexts rest := by
    rw [partTexts_skips pre hpre, partTexts, if_pos rfl, if_neg hts]
  refine ⟨hstream, ?_, hparts, ?_⟩
  · have hmsg : streamTextOf
        { mtype := "assistant",
          message := .present (.pyList (pre ++ .dictItem "text" t :: rest)),
          sessionId := "", rawContent := [] } = t := hstream
    have hemit : emitsContent
        { mtype := "assistant",
          message := .present (.pyList (pre ++ .dictItem "text" t :: rest)),
          sessionId := "", rawContent := [] } = true := by
      rw [emitsContent]
      simp [contentOf, pyContentTruthy, hmsg, hts]
    rw [convert_stream_single_emit cid model _ rfl hemit, hmsg]
  · show extractOne _ ++ extractParts [demoResult] = _
    rw [extractOne, if_pos rfl]
    show partTexts _ ++ extractParts [demoResult] = _
    show partTexts _ ++ (extractOne demoResult ++ extractParts []) = _
    rw [extractOne, if_neg (by decide)]
    simp [extractParts]

/-- Witness for C9 on the two-part content `[text "A", text "B"]`. -/
theorem c9_witness :
    streamTextOfList ([] ++ .dictItem "text" "A".toList :: [.dictItem "text" "B".toList])
      = "A".toList ∧
    convert_stream "cid" "m"
        [{ mtype := "assistant",
           message := .present (.pyList
             ([] ++ .dictItem "text" "A".toList :: [.dictItem "text" "B".toList])),
           sessionId := "", rawContent := [] }, demoResult]
      = [SSEUnit.chunk (initialChunk "cid" "m"),
         SSEUnit.chunk (contentChunk "cid" "m" "A".toList),
         SSEUnit.chunk (finalChunk "cid" "m"), SSEUnit.done] ∧
    partTexts ([] ++ .dictItem "text" "A".toList :: [.dictItem "text" "B".toList])
      = pyStrip "A".toList :: partTexts [.dictItem "text" "B".toList] ∧
    extractParts
        [{ mtype := "assistant",
           message := .present (.pyList
             ([] ++ .dictItem "text" "A".toList :: [.dictItem "text" "B".toList])),
           sessionId := "", rawContent := [] }, demoResult]
      = partTexts ([] ++ .dictItem "text" "A".toList :: [.dictItem "text" "B".toList]) :=
  c9_stream_first_text_part_only "cid" "m" [] [.dictItem "text" "B".toList]
    "A".toList (by decide) (by decide) (by decide)

theorem partTexts_stripped (items : List ContentItem) :
    ∀ p ∈ partTexts items, (∃ x, p = pyStrip x) ∧ p ≠ [] := by
  induction items with
  | nil => intro p hp; simp [partTexts] at hp
  | cons it rest ih =>
    intro p hp
    cases it with
    | dictItem ctype ctext =>
      rw [partTexts] at hp
      by_cases h1 : ctype = "text"
      · rw [if_pos h1] at hp
        by_cases h2 : pyStrip ctext = []
        · rw [if_pos h2] at hp
          exact ih p hp
        · rw [if_neg h2] at hp
          rcases List.mem_cons.mp hp with rfl | hp
          · exact ⟨⟨ctext, rfl⟩, h2⟩
          · exact ih p hp
      · rw [if_neg h1] at hp
        exact ih p hp
    | strItem s =>
      rw [partTexts] at hp
      exact ih p hp

theorem extractParts_stripped (msgs : List MsgDict) :
    ∀ p ∈ extractParts msgs, (∃ x, p = pyStrip x) ∧ p ≠ [] := by
  induction msgs with
  | nil => intro p hp; simp [extractParts] at hp
  | cons m rest ih =>
    intro p hp
    rw [extractParts] at hp
    rcases List.mem_append.mp hp with hp | hp
    · by_cases hty : m.mtype = "assistant"
      · cases hmm : m.message with
        | absent => simp [extractOne, hty, hmm] at hp
        | present c =>
          cases c with
          | pyNone => simp [extractOne, hty, hmm] at hp
          | pyStr s =>
            by_cases hs : pyStrip s = []
            · simp [extractOne, hty, hmm, hs] at hp
            · simp [extractOne, hty, hmm, hs] at hp
              exact ⟨⟨s, hp⟩, hp ▸ hs⟩
          | pyList items =>
            simp only [extractOne, hty, if_pos, hmm, if_true] at hp
            exact partTexts_stripped items p hp
      · simp [extractOne, hty] at hp
    · exact ih p hp

/-- Every extracted part is non-empty with non-whitespace first and last
characters, so joining and re-stripping are well behaved. -/
theorem extractParts_good (msgs : List MsgDict) :
    ∀ p ∈ extractParts msgs, p ≠ [] ∧ headNotWS p ∧ lastNotWS p := by
  intro p hp
  obtain ⟨⟨x, rfl⟩, hne⟩ := extractParts_stripped msgs p hp
  obtain ⟨h1, h2⟩ := pyStrip_ends x hne
  exact ⟨hne, h1, h2⟩

/-- The full behaviour of `complete_content`: the join of the extracted
parts when any exist (the final `strip` is a no-op, and the second
fallback is dead code), the fixed placeholder otherwise; never empty. -/
theorem isEmpty_false_of_ne {α} {l : List α} (h : l ≠ []) : l.isEmpty = false := by
  cases l with
  | nil => exact absurd rfl h
  | cons a l => rfl

theorem contentFallback_of_ne (c : PyStr) (h : c ≠ []) : contentFallback c = c := by
  rw [contentFallback, isEmpty_false_of_ne h]
  rfl

/-- The full behaviour of `complete_content`: the join of the extracted
parts when any exist (the final `strip` is a no-op, and the second
fallback is dead code), the fixed placeholder otherwise; never empty. -/
theorem completeContent_spec (msgs : List MsgDict) :
    completeContent msgs ≠ [] ∧
    (extractParts msgs ≠ [] →
        completeContent msgs = pyJoin ['\n'] (extractParts msgs)) ∧
    (extractParts msgs = [] → completeContent msgs = placeholderContent) := by
  by_cases hp : extractParts msgs = []
  · have hpe : (extractParts msgs).isEmpty = true := by rw [hp]; rfl
    have hpc : completeContent msgs = placeholderContent := by
      rw [completeContent, hpe]
      show contentFallback placeholderContent = placeholderContent
      exact contentFallback_of_ne _ (by decide)
    refine ⟨?_, fun h => absurd hp h, fun _ => hpc⟩
    rw [hpc]
    decide
  · have hgood := extractParts_good msgs
    have hjoin := pyJoin_good ['\n'] (extractParts msgs) hp hgood
    have hfix : pyStrip (pyJoin ['\n'] (extractParts msgs))
        = pyJoin ['\n'] (extractParts msgs) :=
      pyStrip_fixed _ hjoin.2.1 hjoin.2.2
    have hpe : (extractParts msgs).isEmpty = false := isEmpty_false_of_ne hp
    have hcc : completeContent msgs = pyJoin ['\n'] (extractParts msgs) := by
      rw [completeContent, hpe]
      show contentFallback (pyStrip (pyJoin ['\n'] (extractParts msgs))) = _
      rw [hfix]
      exact contentFallback_of_ne _ hjoin.1
    exact ⟨hcc ▸ hjoin.1, fun _ => hcc, fun h => absurd h hp⟩

/-- Claim C2: The aggregated non-streaming content is never empty: it is the
newline-join of the texts of all assistant events (both content shapes
handled, in encounter order), or the fixed placeholder when no assistant
text exists. -/
theorem c2_content_never_empty (msgs : List MsgDict) (sessionId model : String) :
    (create_non_streaming_response msgs sessionId model).content ≠ [] ∧
    (extractParts msgs ≠ [] →
        (create_non_streaming_response msgs sessionId model).content
          = pyJoin ['\n'] (extractParts msgs)) ∧
    (extractParts msgs = [] →
        (create_non_streaming_response msgs sessionId model).content
          = placeholderContent) := by
  have h := completeContent_spec msgs
  exact ⟨h.1, h.2.1, h.2.2⟩

/-- Witness for C2: an empty event list falls back to the non-empty
placeholder, one assistant event yields its joined text. -/
theorem c2_witness :
    (create_non_streaming_response [] "s" "m").content ≠ [] ∧
    (create_non_streaming_response [] "s" "m").content = placeholderContent ∧
    (create_non_streaming_response [demoAssistant "Hi"] "s" "m").content
      = pyJoin ['\n'] (extractParts [demoAssistant "Hi"]) :=
  ⟨(c2_content_never_empty [] "s" "m").1,
   (c2_content_never_empty [] "s" "m").2.2 rfl,
   (c2_content_never_empty [demoAssistant "Hi"] "s" "m").2.1 (by decide)⟩

/-- Claim C8: The usage block of every non-streaming response: prompt
tokens are the fixed baseline 10, completion tokens are the whitespace
token count of the produced content, and the total is their sum; in the
documented scenario (one assistant event `"Hello!"`, then a result
event) the content is `"Hello!"` and the total is `10 + 1`. -/
theorem c8_usage_block_derived (msgs : List MsgDict) (sessionId model : String) :
    (create_non_streaming_response msgs sessionId model).usage.prompt_tokens = 10 ∧
    (create_non_streaming_response msgs sessionId model).usage.completion_tokens
      = pySplitLen (create_non_streaming_response msgs sessionId model).content ∧
    (create_non_streaming_response msgs sessionId model).usage.total_tokens
      = (create_non_streaming_response msgs sessionId model).usage.prompt_tokens
        + (create_non_streaming_response msgs sessionId model).usage.completion_tokens ∧
    (create_non_streaming_response [demoAssistant "Hello!", demoResult]
        sessionId model).content = "Hello!".toList ∧
    (create_non_streaming_response [demoAssistant "Hello!", demoResult]
        sessionId model).usage.total_tokens = 10 + 1 := by
  have hne : (completeContent msgs).isEmpty = false :=
    isEmpty_false_of_ne (completeContent_spec msgs).1
  refine ⟨rfl, ?_, ?_, ?_, ?_⟩
  · show (if (completeContent msgs).isEmpty then 5 else pySplitLen (completeContent msgs))
      = pySplitLen (completeContent msgs)
    rw [hne]
    rfl
  · rfl
  · have : completeContent [demoAssistant "Hello!", demoResult] = "Hello!".toList := by
      decide
    exact this
  · have : (if (completeContent [demoAssistant "Hello!", demoResult]).isEmpty then 5
        else pySplitLen (completeContent [demoAssistant "Hello!", demoResult])) = 1 := by
      decide
    show 10 + _ = 10 + 1
    rw [this]


theorem foldl_end_eq_filter (ids : List String) :
    ∀ m : SessionMap, ids.foldl end_session m
      = m.filter fun p => decide (p.1 ∉ ids) := by
  induction ids with
  | nil =>
    intro m
    simp [List.foldl]
  | cons i ids ih =>
    intro m
    have h1 : (i :: ids).foldl end_session m = ids.foldl end_session (end_session m i) := rfl
    rw [h1, ih, end_session, List.filter_filter]
    refine List.filter_congr ?_
    intro p _
    by_cases hi : p.1 = i <;> by_cases hm : p.1 ∈ ids <;>
      simp [hi, hm, List.mem_cons]

theorem nodup_keys_inj {m : SessionMap}
    (hnd : (m.map Prod.fst).Nodup) {p q : String × SessionInfo}
    (hp : p ∈ m) (hq : q ∈ m) (hpq : p.1 = q.1) : p = q :=
  List.inj_on_of_nodup_map hnd hp hq hpq

theorem cleanup_eq_filter (now timeout : Int) (m : SessionMap)
    (hnd : (m.map Prod.fst).Nodup) :
    cleanup_expired_sessions now timeout m
      = m.filter fun p => !(isExpired now timeout p) := by
  rw [cleanup_expired_sessions, foldl_end_eq_filter]
  refine List.filter_congr ?_
  intro p hp
  have hmem : p.1 ∈ (m.filter (isExpired now timeout)).map Prod.fst
      ↔ isExpired now timeout p = true := by
    constructor
    · intro hmemm
      obtain ⟨q, hq, hq1⟩ := List.mem_map.mp hmemm
      obtain ⟨hqm, hqe⟩ := List.mem_filter.mp hq
      have := nodup_keys_inj hnd hqm hp hq1
      exact this ▸ hqe
    · intro he
      exact List.mem_map.mpr ⟨p, List.mem_filter.mpr ⟨hp, he⟩, rfl⟩
  by_cases he : isExpired now timeout p = true <;> simp [hmem, he]

/-- Claim C7: After one idle-expiry sweep, every session whose `updated_at`
is older than the timeout threshold is gone from the active index (so it
is not counted by `get_session_stats`), while every session within the
threshold survives unchanged; the active count equals the number of
non-expired sessions. -/
theorem c7_idle_sweep (now timeout : Int) (m : SessionMap)
    (hnd : (m.map Prod.fst).Nodup) :
    (∀ p ∈ m, timeout < now - p.2.updated_at →
        ∀ q ∈ cleanup_expired_sessions now timeout m, q.1 ≠ p.1) ∧
    (∀ p ∈ m, now - p.2.updated_at ≤ timeout →
        p ∈ cleanup_expired_sessions now timeout m) ∧
    (get_session_stats (cleanup_expired_sessions now timeout m)).active_sessions
      = (m.filter fun p => !(isExpired now timeout p)).length := by
  have hcl := cleanup_eq_filter now timeout m hnd
  refine ⟨?_, ?_, ?_⟩
  · intro p hp hexp q hq hqp
    rw [hcl] at hq
    obtain ⟨hqm, hqe⟩ := List.mem_filter.mp hq
    have : q = p := nodup_keys_inj hnd hqm hp hqp
    subst this
    simp [isExpired, hexp] at hqe
  · intro p hp hin
    rw [hcl]
    refine List.mem_filter.mpr ⟨hp, ?_⟩
    simp [isExpired]
    omega
  · rw [hcl]
    rfl

/-- Concrete map for the C7 witness: session `"a"` idle since time 0,
session `"b"` updated at time 180; sweep at time 200 with timeout 50. -/
def c7Map : SessionMap :=
  [("a", ⟨"p", "m1", 0, 1, 0, 1⟩), ("b", ⟨"p", "m2", 180, 2, 0, 2⟩)]

/-- Witness for C7 on `c7Map`. -/
theorem c7_witness :
    (∀ p ∈ c7Map, (50 : Int) < 200 - p.2.updated_at →
        ∀ q ∈ cleanup_expired_sessions 200 50 c7Map, q.1 ≠ p.1) ∧
    (∀ p ∈ c7Map, 200 - p.2.updated_at ≤ (50 : Int) →
        p ∈ cleanup_expired_sessions 200 50 c7Map) ∧
    (get_session_stats (cleanup_expired_sessions 200 50 c7Map)).active_sessions
      = (c7Map.filter fun p => !(isExpired 200 50 p)).length :=
  c7_idle_sweep 200 50 c7Map (by decide)

/-- Witness for C3 at the malformed line `"not json"`. -/
theorem c3_witness :
    parse_line initParser "not json".toList none = (initParser, none) ∧
    processOutputLine none ⟨"not json".toList, none⟩
      = (none, [textSentinel "not json".toList]) ∧
    (textSentinel "not json".toList).mtype = "text" ∧
    (textSentinel "not json".toList).rawContent = "not json".toList :=
  c3_malformed_line_recovered initParser "not json".toList none (by decide)
